import Mathlib

set_option maxRecDepth 100000

/-!
Verification development for the `terminal-model` repository: a streaming
ANSI terminal emulator (ANSI tokenizer, CSI classifier, SGR composer,
single-line cell terminal, emission strategies and a transform adapter).

The definitions below are a shallow embedding of the TypeScript sources:

* `SgrComposer.*`    embeds `src/terminal/SgrComposer.ts`
* `CsiHandler.*`     embeds `src/terminal/ansi/CsiHandler.ts`
* `AnsiParser.*`     embeds `src/terminal/ansi/AnsiParser.ts`
* `StreamingTerminal.*` embeds `src/terminal/StreamingTerminal.ts`
* `TerminalTransform.*` and the strategy `onWrite` functions embed
  `src/terminal/TerminalTransform.ts` and `src/terminal/strategies/*`

JavaScript specifics are modelled as follows: an object field that may be
absent is an `Option`; a JS array that may contain `null`/holes is a
`List (Option Cell)`; `Math.max(0, a - b)` on non-negative numbers is
truncated `Nat` subtraction; `x || d` on a non-negative number is
`if x = 0 then d else x`.
-/

/-- Attribute record from `ansi/types.ts`: optional colors and optional
booleans (a field that is absent in the JS object is `none`). -/
@[ext] structure SgrAttributes where
  fg : Option Nat := none
  bg : Option Nat := none
  bold : Option Bool := none
  dim : Option Bool := none
  italic : Option Bool := none
  underline : Option Bool := none
  blink : Option Bool := none
  inverse : Option Bool := none
  hidden : Option Bool := none
  strikethrough : Option Bool := none
  deriving DecidableEq

/-- A written glyph: the character plus the SGR snapshot taken when it was
written (`ansi/types.ts` `Cell`). -/
structure Cell where
  char : Char
  sgr : SgrAttributes
  deriving DecidableEq

/-- RGB color packed into one number exactly as the source does:
`(r << 16) | (g << 8) | b | 0x1000000` (bit 24 is the RGB marker). -/
def SgrComposer.rgbEncode (r g b : Nat) : Nat :=
  (r <<< 16) ||| (g <<< 8) ||| b ||| 0x1000000

/-- One iteration of the `while` loop of `SgrComposer.parse`: given the
accumulated attributes, the current parameter and the parameters after it,
produce the updated attributes and the remaining parameters — or `none`
for parameter `0`, which makes `parse` return an empty record at once.
`38`/`48` consume their extended-color sub-parameters (the loop advances
`i` by 2 or 4 more) when present, and otherwise fall through, consuming
only themselves; unrecognised parameters are ignored. -/
def SgrComposer.parseStep (attrs : SgrAttributes) (p : Nat) (rest : List Nat) :
    Option (SgrAttributes × List Nat) :=
  if p = 0 then none
  else if p = 1 then some ({ attrs with bold := some true }, rest)
  else if p = 2 then some ({ attrs with dim := some true }, rest)
  else if p = 3 then some ({ attrs with italic := some true }, rest)
  else if p = 4 then some ({ attrs with underline := some true }, rest)
  else if p = 5 then some ({ attrs with blink := some true }, rest)
  else if p = 7 then some ({ attrs with inverse := some true }, rest)
  else if p = 8 then some ({ attrs with hidden := some true }, rest)
  else if p = 9 then some ({ attrs with strikethrough := some true }, rest)
  else if p = 22 then some ({ attrs with bold := some false, dim := some false }, rest)
  else if p = 23 then some ({ attrs with italic := some false }, rest)
  else if p = 24 then some ({ attrs with underline := some false }, rest)
  else if p = 25 then some ({ attrs with blink := some false }, rest)
  else if p = 27 then some ({ attrs with inverse := some false }, rest)
  else if p = 28 then some ({ attrs with hidden := some false }, rest)
  else if p = 29 then some ({ attrs with strikethrough := some false }, rest)
  else if 30 ≤ p ∧ p ≤ 37 then some ({ attrs with fg := some (p - 30) }, rest)
  else if p = 38 then
    match rest with
    | 5 :: n :: rest2 => some ({ attrs with fg := some n }, rest2)
    | 2 :: r :: g :: b :: rest2 =>
        some ({ attrs with fg := some (SgrComposer.rgbEncode r g b) }, rest2)
    | _ => some (attrs, rest)
  else if p = 39 then some ({ attrs with fg := none }, rest)
  else if 40 ≤ p ∧ p ≤ 47 then some ({ attrs with bg := some (p - 40) }, rest)
  else if p = 48 then
    match rest with
    | 5 :: n :: rest2 => some ({ attrs with bg := some n }, rest2)
    | 2 :: r :: g :: b :: rest2 =>
        some ({ attrs with bg := some (SgrComposer.rgbEncode r g b) }, rest2)
    | _ => some (attrs, rest)
  else if p = 49 then some ({ attrs with bg := none }, rest)
  else if 90 ≤ p ∧ p ≤ 97 then some ({ attrs with fg := some (p - 90 + 8) }, rest)
  else if 100 ≤ p ∧ p ≤ 107 then some ({ attrs with bg := some (p - 100 + 8) }, rest)
  else some (attrs, rest)

/-- The `while` loop of `SgrComposer.parse`, iterating `parseStep`.  The
`fuel` argument makes the recursion structural; `parse` supplies
`params.length`, which always suffices because every iteration consumes at
least one parameter. -/
def SgrComposer.parseGo : Nat → SgrAttributes → List Nat → SgrAttributes
  | _, attrs, [] => attrs
  | 0, attrs, _ :: _ => attrs
  | fuel + 1, attrs, p :: rest =>
    match SgrComposer.parseStep attrs p rest with
    | none => {}
    | some (attrs2, rest2) => SgrComposer.parseGo fuel attrs2 rest2

/-- `SgrComposer.parse`: parse an SGR parameter list into an attribute
record, starting from the empty record. -/
def SgrComposer.parse (params : List Nat) : SgrAttributes :=
  SgrComposer.parseGo params.length {} params

/-- One field of `compose`: the JS spread `{...base, ...overlay}` keeps the
overlay's value for a key present in the overlay and the base's otherwise. -/
def SgrComposer.composeField {α : Type} (b o : Option α) : Option α :=
  match o with
  | some v => some v
  | none => b

/-- `SgrComposer.compose`: overlay attributes override base attributes,
field by field. -/
def SgrComposer.compose (base overlay : SgrAttributes) : SgrAttributes where
  fg := SgrComposer.composeField base.fg overlay.fg
  bg := SgrComposer.composeField base.bg overlay.bg
  bold := SgrComposer.composeField base.bold overlay.bold
  dim := SgrComposer.composeField base.dim overlay.dim
  italic := SgrComposer.composeField base.italic overlay.italic
  underline := SgrComposer.composeField base.underline overlay.underline
  blink := SgrComposer.composeField base.blink overlay.blink
  inverse := SgrComposer.composeField base.inverse overlay.inverse
  hidden := SgrComposer.composeField base.hidden overlay.hidden
  strikethrough := SgrComposer.composeField base.strikethrough overlay.strikethrough

/-- The numeric code list built by `SgrComposer.toSequence`: bool codes in
the fixed order 1,2,3,4,5,7,8,9 (only for fields that are `true`), then the
foreground codes, then the background codes, each color in its narrowest
form. -/
def SgrComposer.toCodes (attrs : SgrAttributes) : List Nat :=
  (if attrs.bold = some true then [1] else []) ++
  (if attrs.dim = some true then [2] else []) ++
  (if attrs.italic = some true then [3] else []) ++
  (if attrs.underline = some true then [4] else []) ++
  (if attrs.blink = some true then [5] else []) ++
  (if attrs.inverse = some true then [7] else []) ++
  (if attrs.hidden = some true then [8] else []) ++
  (if attrs.strikethrough = some true then [9] else []) ++
  (match attrs.fg with
   | none => []
   | some c =>
     if c &&& 0x1000000 ≠ 0 then
       [38, 2, (c >>> 16) &&& 0xff, (c >>> 8) &&& 0xff, c &&& 0xff]
     else if c < 8 then [30 + c]
     else if c < 16 then [90 + (c - 8)]
     else [38, 5, c]) ++
  (match attrs.bg with
   | none => []
   | some c =>
     if c &&& 0x1000000 ≠ 0 then
       [48, 2, (c >>> 16) &&& 0xff, (c >>> 8) &&& 0xff, c &&& 0xff]
     else if c < 8 then [40 + c]
     else if c < 16 then [100 + (c - 8)]
     else [48, 5, c])

/-- `SgrComposer.toSequence`: the ANSI SGR string for an attribute record;
the empty string when no codes are produced. -/
def SgrComposer.toSequence (attrs : SgrAttributes) : String :=
  let codes := SgrComposer.toCodes attrs
  if codes = [] then ""
  else "\x1b[" ++ String.intercalate ";" (codes.map (fun n => toString n)) ++ "m"

/-- `SgrComposer.equals`: compares all ten fields (unset and explicitly
false are distinct). -/
def SgrComposer.equalsb (a b : SgrAttributes) : Bool :=
  a.fg == b.fg && a.bg == b.bg && a.bold == b.bold && a.dim == b.dim &&
  a.italic == b.italic && a.underline == b.underline && a.blink == b.blink &&
  a.inverse == b.inverse && a.hidden == b.hidden && a.strikethrough == b.strikethrough

/-- `SgrComposer.isEmpty`: the JS object has no keys, i.e. every field is
absent. -/
def SgrComposer.isEmpty (a : SgrAttributes) : Bool :=
  a.fg.isNone && a.bg.isNone && a.bold.isNone && a.dim.isNone &&
  a.italic.isNone && a.underline.isNone && a.blink.isNone &&
  a.inverse.isNone && a.hidden.isNone && a.strikethrough.isNone

/-- What a CSI command affects (`CsiHandler.categorize`). -/
structure CsiAffects where
  cursor : Bool := false
  erasure : Bool := false
  style : Bool := false
  deriving DecidableEq

/-- `CsiHandler.categorize`: tag which line aspects a CSI command affects. -/
def CsiHandler.categorize (cmd : Char) : CsiAffects :=
  if cmd = 'm' then { style := true }
  else if cmd = 'G' ∨ cmd = 'C' ∨ cmd = 'D' ∨ cmd = '`' then { cursor := true }
  else if cmd = 'A' ∨ cmd = 'B' ∨ cmd = 'H' ∨ cmd = 'f' then {}
  else if cmd = 'K' ∨ cmd = 'X' ∨ cmd = 'P' ∨ cmd = '@' then { erasure := true }
  else if cmd = 'J' ∨ cmd = 'S' ∨ cmd = 'T' ∨ cmd = 'L' ∨ cmd = 'M' then {}
  else if cmd = 's' ∨ cmd = 'u' then { cursor := true }
  else {}

/-- Parsed CSI command (`CsiHandler.ts` `CsiCommand`). -/
structure CsiCommand where
  command : Char
  params : List Nat
  affects : CsiAffects
  deriving DecidableEq

/-- JS `split(';')` on the parameter characters (which the tokenizer
guarantees to be drawn from `[0-9;]`). -/
def CsiHandler.splitParams : List Char → List (List Char)
  | [] => [[]]
  | c :: rest =>
    match CsiHandler.splitParams rest with
    | [] => [[c]]
    | h :: t => if c = ';' then [] :: h :: t else (c :: h) :: t

/-- JS `parseInt(n, 10) || 0` on a field of a CSI parameter list: such a
field consists of decimal digits only, so this is its decimal value, with a
blank field (where `parseInt` gives `NaN`) becoming 0. -/
def CsiHandler.parseIntOr0 (cs : List Char) : Nat :=
  cs.foldl (fun acc c => acc * 10 + (c.toNat - '0'.toNat)) 0

/-- `CsiHandler.parse`: split the parameter string on `;`, each field read
as a base-10 integer with blank fields becoming 0; the empty string yields
`[0]`. -/
def CsiHandler.parse (params : List Char) (cmd : Char) : CsiCommand where
  command := cmd
  params :=
    if params = [] then [0]
    else (CsiHandler.splitParams params).map CsiHandler.parseIntOr0
  affects := CsiHandler.categorize cmd

/-- Token produced by `AnsiParser.parseNext` (`ansi/types.ts`
`AnsiSequence`): a control character, a complete CSI sequence, an
ESC-introduced sequence returned opaquely, or a printable character. -/
inductive Tok where
  | control (c : Char)
  | csi (params : List Char) (cmd : Char)
  | escape (ddata : String)
  | printable (c : Char)
  deriving DecidableEq

/-- Characters allowed in a CSI parameter list: `[0-9;]`. -/
def AnsiParser.isCsiParamChar (c : Char) : Bool :=
  ('0' ≤ c && c ≤ '9') || c = ';'

/-- CSI final bytes: `[A-Za-z` + backquote + `@]`. -/
def AnsiParser.isCsiFinal (c : Char) : Bool :=
  ('A' ≤ c && c ≤ 'Z') || ('a' ≤ c && c ≤ 'z') || c = '`' || c = '@'

/-- OSC-style introducers after ESC: `]`, `P`, `^`, `_`. -/
def AnsiParser.isOscIntro (c : Char) : Bool :=
  c = ']' || c = 'P' || c = '^' || c = '_'

/-- OSC payload characters: anything except BEL, ESC, `\n`, `\r`. -/
def AnsiParser.isOscPayloadChar (c : Char) : Bool :=
  !(c = '\x07' || c = '\x1b' || c = '\n' || c = '\r')

/-- Single-character escapes recognised after ESC: `7 8 = > H M`. -/
def AnsiParser.isSimpleEscape (c : Char) : Bool :=
  c = '7' || c = '8' || c = '=' || c = '>' || c = 'H' || c = 'M'

/-- The OSC / simple-escape / skip fallback of `AnsiParser.parseNext`,
applied to the characters following an ESC that did not start a complete
CSI sequence.  Mirrors `OSC_REGEX` (payload up to an optional BEL or
ESC-backslash terminator), then `ESCAPE_REGEX`, then the skip policy that
consumes the lone ESC. -/
def AnsiParser.oscOrEscape (rest : List Char) : Tok × Nat :=
  match rest with
  | [] => (Tok.escape "\x1b", 1)
  | d :: rest2 =>
    if AnsiParser.isOscIntro d then
      let payload := rest2.takeWhile AnsiParser.isOscPayloadChar
      match rest2.drop payload.length with
      | '\x07' :: _ =>
          (Tok.escape (String.mk ('\x1b' :: d :: (payload ++ ['\x07']))), payload.length + 3)
      | '\x1b' :: '\\' :: _ =>
          (Tok.escape (String.mk ('\x1b' :: d :: (payload ++ ['\x1b', '\\']))), payload.length + 4)
      | _ => (Tok.escape (String.mk ('\x1b' :: d :: payload)), payload.length + 2)
    else if AnsiParser.isSimpleEscape d then (Tok.escape (String.mk [d]), 2)
    else (Tok.escape "\x1b", 1)

/-- `AnsiParser.parseNext` on the suffix of the input starting at the
current position: `none` when the character is an ignored control byte
(consumed by the caller), otherwise the token and its consumed length. -/
def AnsiParser.parseNext (s : List Char) : Option (Tok × Nat) :=
  match s with
  | [] => none
  | c :: rest =>
    if c = '\n' || c = '\r' || c = '\t' || c = '\x08' then some (Tok.control c, 1)
    else if c = '\x1b' then
      match rest with
      | '[' :: rest2 =>
        let ps := rest2.takeWhile AnsiParser.isCsiParamChar
        (match rest2.drop ps.length with
         | f :: _ =>
             if AnsiParser.isCsiFinal f then some (Tok.csi ps f, ps.length + 3)
             else some (AnsiParser.oscOrEscape rest)
         | [] => some (AnsiParser.oscOrEscape rest))
      | _ => some (AnsiParser.oscOrEscape rest)
    else if ' ' ≤ c || '\x7f' < c then some (Tok.printable c, 1)
    else none

/-- The scanning loop of `StreamingTerminal.write`, separated from the
state updates (legitimate because `parseNext` never reads terminal state):
repeatedly take the next token, skipping ignored control bytes.  `fuel`
makes the recursion structural; every step consumes at least one character,
so `tokenize` passing the string length always suffices. -/
def AnsiParser.tokenizeGo : Nat → List Char → List Tok
  | 0, _ => []
  | _, [] => []
  | fuel + 1, c :: rest =>
    match AnsiParser.parseNext (c :: rest) with
    | none => AnsiParser.tokenizeGo fuel rest
    | some (tok, len) => tok :: AnsiParser.tokenizeGo fuel (List.drop len (c :: rest))

/-- Token stream of a chunk. -/
def AnsiParser.tokenize (s : List Char) : List Tok :=
  AnsiParser.tokenizeGo s.length s

/-- `AnsiParser.getIncompleteSequence`: a trailing lone ESC, or a trailing
`ESC [` followed by parameter characters with no final byte; otherwise
nothing. -/
def AnsiParser.getIncompleteSequence (s : List Char) : List Char :=
  if s.getLast? = some '\x1b' then ['\x1b']
  else
    let revps := s.reverse.takeWhile AnsiParser.isCsiParamChar
    match s.reverse.drop revps.length with
    | '[' :: '\x1b' :: _ => '\x1b' :: '[' :: revps.reverse
    | _ => []

/-- The mutable state of a `StreamingTerminal`.  A JS array that may hold
`null` entries or holes is a `List (Option Cell)`. -/
structure Terminal where
  cells : List (Option Cell) := []
  cursor : Nat := 0
  activeSgr : SgrAttributes := {}
  savedCursor : Nat := 0
  incompleteSequence : String := ""
  deriving DecidableEq

/-- A terminal as constructed: no cells, cursor 0, no active SGR, saved
cursor 0, empty incomplete-sequence buffer. -/
def emptyTerminal : Terminal := {}

/-- State information returned by each `write`
(`StreamingTerminal.ts` `TerminalState`). -/
structure TerminalState where
  hadNewline : Bool
  hadCarriageReturn : Bool
  hadCursorMovement : Bool
  hadErasure : Bool
  cursorPosition : Nat
  cellCount : Nat
  deriving DecidableEq

/-- JS array element assignment `cells[i] = v`: in range it overwrites;
past the end it extends the array with holes (`none`) up to index `i`. -/
def setCell (cs : List (Option Cell)) (i : Nat) (v : Option Cell) : List (Option Cell) :=
  if i < cs.length then cs.set i v
  else cs ++ List.replicate (i - cs.length) none ++ [v]

/-- JS `cells.length = n`: truncates, or extends with holes. -/
def setLength (cs : List (Option Cell)) (n : Nat) : List (Option Cell) :=
  if n ≤ cs.length then cs.take n
  else cs ++ List.replicate (n - cs.length) none

/-- The ANSI reset sequence emitted by `renderLine`. -/
def sgrReset : String := "\x1b[0m"

/-- Index of the last cell that holds a glyph (`renderLine` step 1);
`none` when the line is empty. -/
def StreamingTerminal.lastContentIndex : List (Option Cell) → Option Nat
  | [] => none
  | c :: rest =>
    match StreamingTerminal.lastContentIndex rest with
    | some j => some (j + 1)
    | none => if c.isSome then some 0 else none

/-- One step of the `renderLine` walk: the accumulator is the rendered
string so far and `lastSgr`. -/
def StreamingTerminal.renderStep (acc : String × SgrAttributes) (cell : Option Cell) :
    String × SgrAttributes :=
  match cell with
  | some cl =>
    if SgrComposer.equalsb cl.sgr acc.2 then (acc.1.push cl.char, acc.2)
    else if SgrComposer.isEmpty cl.sgr then ((acc.1 ++ sgrReset).push cl.char, cl.sgr)
    else
      (((if SgrComposer.isEmpty acc.2 then acc.1 else acc.1 ++ sgrReset) ++
          SgrComposer.toSequence cl.sgr).push cl.char, cl.sgr)
  | none =>
    if SgrComposer.isEmpty acc.2 then (acc.1.push ' ', acc.2)
    else ((acc.1 ++ sgrReset).push ' ', {})

/-- Drop the trailing run of spaces. -/
def dropTrailingSpaces (cs : List Char) : List Char :=
  (cs.reverse.dropWhile (fun c => c = ' ')).reverse

/-- The two trailing-trim replacements of `renderLine`: spaces immediately
before a terminal reset are removed (keeping the reset), and unconditional
trailing spaces are removed. -/
def StreamingTerminal.trimTrailing (cs : List Char) : List Char :=
  if List.isSuffixOf sgrReset.toList cs then
    dropTrailingSpaces (cs.take (cs.length - 4)) ++ sgrReset.toList
  else dropTrailingSpaces cs

/-- `renderLine` as a function of the cell list only (the source method
reads nothing else). -/
def StreamingTerminal.renderOfCells (cells : List (Option Cell)) : String :=
  match StreamingTerminal.lastContentIndex cells with
  | none => ""
  | some last =>
    let r := (cells.take (last + 1)).foldl StreamingTerminal.renderStep ("", {})
    let result := if SgrComposer.isEmpty r.2 then r.1 else r.1 ++ sgrReset
    String.mk (StreamingTerminal.trimTrailing result.toList)

/-- `StreamingTerminal.renderLine`. -/
def StreamingTerminal.renderLine (t : Terminal) : String :=
  StreamingTerminal.renderOfCells t.cells

/-- `renderLine` as a call on the object: it returns the rendered string
and leaves the receiver untouched (the method body contains no assignment
to `this`). -/
def StreamingTerminal.renderLineCall (t : Terminal) : String × Terminal :=
  (StreamingTerminal.renderLine t, t)

/-- `StreamingTerminal.reset`: clear cells and cursor; `activeSgr` (and the
saved cursor and incomplete buffer) persist. -/
def StreamingTerminal.reset (t : Terminal) : Terminal :=
  { t with cells := [], cursor := 0 }

/-- `StreamingTerminal.hasContent`. -/
def StreamingTerminal.hasContent (t : Terminal) : Bool :=
  t.cells.length > 0

/-- `StreamingTerminal.getCursor`. -/
def StreamingTerminal.getCursor (t : Terminal) : Nat :=
  t.cursor

/-- `StreamingTerminal.dispose`: clears cells, `activeSgr` and the
incomplete-sequence buffer (and nothing else). -/
def StreamingTerminal.dispose (t : Terminal) : Terminal :=
  { t with cells := [], activeSgr := {}, incompleteSequence := "" }

/-- JS `params[0] || d` for a non-negative parameter: 0 or missing becomes
the default `d`. -/
def orDefault (n d : Nat) : Nat :=
  if n = 0 then d else n

/-- `StreamingTerminal.applyCsi`: dispatch one parsed CSI command.
`Math.max(0, x - y)` on naturals is truncated subtraction. -/
def StreamingTerminal.applyCsi (t : Terminal) (st : TerminalState) (csi : CsiCommand) :
    Terminal × TerminalState :=
  let st := { st with
    hadCursorMovement := st.hadCursorMovement || csi.affects.cursor,
    hadErasure := st.hadErasure || csi.affects.erasure }
  let p0 := csi.params.headD 0
  if csi.command = 'm' then
    ({ t with activeSgr := SgrComposer.compose t.activeSgr (SgrComposer.parse csi.params) }, st)
  else if csi.command = 'G' then ({ t with cursor := orDefault p0 1 - 1 }, st)
  else if csi.command = '`' then ({ t with cursor := orDefault p0 1 - 1 }, st)
  else if csi.command = 'C' then ({ t with cursor := t.cursor + orDefault p0 1 }, st)
  else if csi.command = 'D' then ({ t with cursor := t.cursor - orDefault p0 1 }, st)
  else if csi.command = 'K' then
    (if p0 = 0 then { t with cells := setLength t.cells t.cursor }
     else if p0 = 1 then
       { t with cells := (List.range (t.cursor + 1)).foldl (fun cs j => setCell cs j none) t.cells }
     else if p0 = 2 then { t with cells := [], cursor := 0 }
     else t, st)
  else if csi.command = 'X' then
    ({ t with cells :=
        (List.range (orDefault p0 1)).foldl (fun cs j => setCell cs (t.cursor + j) none) t.cells }, st)
  else if csi.command = 'P' then
    ({ t with cells := t.cells.take t.cursor ++ t.cells.drop (t.cursor + orDefault p0 1) }, st)
  else if csi.command = '@' then
    ({ t with cells :=
        t.cells.take t.cursor ++ List.replicate (orDefault p0 1) none ++ t.cells.drop t.cursor }, st)
  else if csi.command = 's' then ({ t with savedCursor := t.cursor }, st)
  else if csi.command = 'u' then ({ t with cursor := t.savedCursor }, st)
  else (t, st)

/-- `StreamingTerminal.applyEscape`: ESC 7 saves the cursor, ESC 8 restores
it, everything else is ignored. -/
def StreamingTerminal.applyEscape (t : Terminal) (st : TerminalState) (ddata : String) :
    Terminal × TerminalState :=
  if ddata = "7" then
    ({ t with savedCursor := t.cursor }, { st with hadCursorMovement := true })
  else if ddata = "8" then
    ({ t with cursor := t.savedCursor }, { st with hadCursorMovement := true })
  else (t, st)

/-- Intermediate state of one `write` call: the terminal, the
`TerminalState` being accumulated, and the lines delivered so far through
the line-ready callback. -/
structure WriteResult where
  term : Terminal
  state : TerminalState
  lines : List String
  deriving DecidableEq

/-- `StreamingTerminal.applyControl`.  `cb` records whether a line-ready
callback is installed; the callback modelled is the transform adapter's
`emitCurrentLine` (render the line, reset the terminal, deliver the
string), invoked synchronously when `\n` is processed. -/
def StreamingTerminal.applyControl (cb : Bool) (w : WriteResult) (c : Char) : WriteResult :=
  if c = '\r' then
    { w with term := { w.term with cursor := 0 },
             state := { w.state with hadCarriageReturn := true } }
  else if c = '\n' then
    let st := { w.state with hadNewline := true }
    if cb then
      { term := StreamingTerminal.reset w.term, state := st,
        lines := w.lines ++ [StreamingTerminal.renderLine w.term] }
    else { w with state := st }
  else if c = '\x08' then
    { w with term := { w.term with cursor := w.term.cursor - 1 },
             state := { w.state with hadCursorMovement := true } }
  else if c = '\t' then
    let nextTab := (w.term.cursor / 8 + 1) * 8
    let cells := (List.range (nextTab - w.term.cursor)).foldl
      (fun cs j => setCell cs (w.term.cursor + j) (some ⟨' ', w.term.activeSgr⟩)) w.term.cells
    { w with term := { w.term with cells := cells, cursor := nextTab } }
  else w

/-- Apply one token inside the `write` loop, mirroring the dispatch in the
source: CSI goes through `CsiHandler.parse` and `applyCsi`, escapes through
`applyEscape`, controls through `applyControl`, and a printable character
writes a glyph carrying a copy of `activeSgr` and advances the cursor. -/
def StreamingTerminal.applyTok (cb : Bool) (w : WriteResult) (tok : Tok) : WriteResult :=
  match tok with
  | Tok.csi params cmd =>
    let r := StreamingTerminal.applyCsi w.term w.state (CsiHandler.parse params cmd)
    { w with term := r.1, state := r.2 }
  | Tok.escape ddata =>
    let r := StreamingTerminal.applyEscape w.term w.state ddata
    { w with term := r.1, state := r.2 }
  | Tok.control c => StreamingTerminal.applyControl cb w c
  | Tok.printable c =>
    { w with term := { w.term with
        cells := setCell w.term.cells w.term.cursor (some ⟨c, w.term.activeSgr⟩),
        cursor := w.term.cursor + 1 } }

/-- `StreamingTerminal.write`: prepend any buffered incomplete sequence,
clear the buffer, process every token of the combined string, then store
the trailing incomplete fragment of the combined string and finish the
returned state with the post-write cursor and cell count. -/
def StreamingTerminal.write (cb : Bool) (t : Terminal) (input : String) : WriteResult :=
  let str := t.incompleteSequence ++ input
  let t0 : Terminal := { t with incompleteSequence := "" }
  let st0 : TerminalState :=
    { hadNewline := false, hadCarriageReturn := false, hadCursorMovement := false,
      hadErasure := false, cursorPosition := t0.cursor, cellCount := t0.cells.length }
  let w := (AnsiParser.tokenize str.toList).foldl (StreamingTerminal.applyTok cb)
    { term := t0, state := st0, lines := [] }
  { term := { w.term with
      incompleteSequence := String.mk (AnsiParser.getIncompleteSequence str.toList) },
    state := { w.state with cursorPosition := w.term.cursor, cellCount := w.term.cells.length },
    lines := w.lines }

/-- A sequence of `write` calls starting from a given terminal. -/
def StreamingTerminal.writeAll (cb : Bool) (t : Terminal) : List String → Terminal
  | [] => t
  | c :: cs => StreamingTerminal.writeAll cb (StreamingTerminal.write cb t c).term cs

/-- `ImmediateStrategy.onWrite`: always false (lines are emitted through
the terminal's line-ready callback). -/
def ImmediateStrategy.onWrite (_t : Terminal) (_st : TerminalState) : Bool :=
  false

/-- The synchronous decision of `TimeoutStrategy.onWrite`: true exactly on
a newline (timer arming is asynchronous and out of model). -/
def TimeoutStrategy.onWrite (_t : Terminal) (st : TerminalState) : Bool :=
  st.hadNewline

/-- The synchronous decision of `StatefulTimeoutStrategy.onWrite`:
identical to the fixed-timeout strategy (only the armed delay differs). -/
def StatefulTimeoutStrategy.onWrite (_t : Terminal) (st : TerminalState) : Bool :=
  st.hadNewline

/-- `TerminalTransform._transform` for one chunk, with the line-ready
callback wired to `emitCurrentLine` (as the constructor does): write the
chunk, ask the strategy, and if it answers true emit the current line
(render, then reset).  Returns the terminal and every line emitted during
the chunk, in order. -/
def TerminalTransform.transformChunk (onWrite : Terminal → TerminalState → Bool)
    (t : Terminal) (chunk : String) : Terminal × List String :=
  let w := StreamingTerminal.write true t chunk
  let shouldEmit := onWrite w.term w.state
  if shouldEmit then
    (StreamingTerminal.reset w.term, w.lines ++ [StreamingTerminal.renderLine w.term])
  else (w.term, w.lines)

/-- `TerminalTransform._flush` at stream end: if the strategy's `flush`
returned true and the terminal has content, emit once more; then dispose
the terminal. -/
def TerminalTransform.flushEnd (shouldFlush : Bool) (t : Terminal) : Terminal × List String :=
  if shouldFlush && StreamingTerminal.hasContent t then
    (StreamingTerminal.dispose (StreamingTerminal.reset t), [StreamingTerminal.renderLine t])
  else (StreamingTerminal.dispose t, [])
/-! ## Helper lemmas about the SGR parser -/

/-- `parseGo` on an exhausted parameter list returns the accumulator. -/
theorem SgrComposer.parseGo_nil (f : Nat) (a : SgrAttributes) :
    SgrComposer.parseGo f a [] = a := by
  cases f <;> rfl

/-- Unfolding of one `parseGo` iteration. -/
theorem SgrComposer.parseGo_cons (f : Nat) (a : SgrAttributes) (p : Nat) (rest : List Nat) :
    SgrComposer.parseGo (f + 1) a (p :: rest) =
      match SgrComposer.parseStep a p rest with
      | none => {}
      | some (a2, r2) => SgrComposer.parseGo f a2 r2 := rfl

/-- A parameter of 108 or more falls through every branch of the chain:
nothing is recognised and only the parameter itself is consumed. -/
theorem SgrComposer.parseStep_large (a : SgrAttributes) (p : Nat) (rest : List Nat)
    (hp : 108 ≤ p) :
    SgrComposer.parseStep a p rest = some (a, rest) := by
  unfold SgrComposer.parseStep
  rw [if_neg (show ¬ p = 0 by omega), if_neg (show ¬ p = 1 by omega),
    if_neg (show ¬ p = 2 by omega), if_neg (show ¬ p = 3 by omega),
    if_neg (show ¬ p = 4 by omega), if_neg (show ¬ p = 5 by omega),
    if_neg (show ¬ p = 7 by omega), if_neg (show ¬ p = 8 by omega),
    if_neg (show ¬ p = 9 by omega), if_neg (show ¬ p = 22 by omega),
    if_neg (show ¬ p = 23 by omega), if_neg (show ¬ p = 24 by omega),
    if_neg (show ¬ p = 25 by omega), if_neg (show ¬ p = 27 by omega),
    if_neg (show ¬ p = 28 by omega), if_neg (show ¬ p = 29 by omega),
    if_neg (show ¬ (30 ≤ p ∧ p ≤ 37) by omega), if_neg (show ¬ p = 38 by omega),
    if_neg (show ¬ p = 39 by omega), if_neg (show ¬ (40 ≤ p ∧ p ≤ 47) by omega),
    if_neg (show ¬ p = 48 by omega), if_neg (show ¬ p = 49 by omega),
    if_neg (show ¬ (90 ≤ p ∧ p ≤ 97) by omega),
    if_neg (show ¬ (100 ≤ p ∧ p ≤ 107) by omega)]

/-- Parameter 0 aborts the scan. -/
theorem SgrComposer.parseStep_zero (a : SgrAttributes) (rest : List Nat) :
    SgrComposer.parseStep a 0 rest = none := rfl

/-- The extended-color branch for a foreground introducer. -/
theorem SgrComposer.parseStep_38 (a : SgrAttributes) (rest : List Nat) :
    SgrComposer.parseStep a 38 rest =
      match rest with
      | 5 :: n :: rest2 => some ({ a with fg := some n }, rest2)
      | 2 :: r :: g :: b :: rest2 =>
          some ({ a with fg := some (SgrComposer.rgbEncode r g b) }, rest2)
      | _ => some (a, rest) := rfl

/-- The extended-color branch for a background introducer. -/
theorem SgrComposer.parseStep_48 (a : SgrAttributes) (rest : List Nat) :
    SgrComposer.parseStep a 48 rest =
      match rest with
      | 5 :: n :: rest2 => some ({ a with bg := some n }, rest2)
      | 2 :: r :: g :: b :: rest2 =>
          some ({ a with bg := some (SgrComposer.rgbEncode r g b) }, rest2)
      | _ => some (a, rest) := rfl

/-- A scanned parameter other than 0, 38 and 48 consumes exactly itself. -/
theorem SgrComposer.parseStep_cases (a : SgrAttributes) (p : Nat) (rest : List Nat)
    (h0 : p ≠ 0) (h38 : p ≠ 38) (h48 : p ≠ 48) :
    ∃ a2, SgrComposer.parseStep a p rest = some (a2, rest) := by
  by_cases hp : p < 108
  · interval_cases p <;>
      first
        | (exact absurd rfl h0)
        | (exact absurd rfl h38)
        | (exact absurd rfl h48)
        | exact ⟨_, rfl⟩
  · exact ⟨a, SgrComposer.parseStep_large a p rest (by omega)⟩

/-- Every loop iteration consumes at least the current parameter: the
remaining list never grows. -/
theorem SgrComposer.parseStep_length (a : SgrAttributes) (p : Nat) (rest : List Nat)
    (a2 : SgrAttributes) (r2 : List Nat) (h : SgrComposer.parseStep a p rest = some (a2, r2)) :
    r2.length ≤ rest.length := by
  by_cases h0 : p = 0
  · subst h0; rw [SgrComposer.parseStep_zero] at h; cases h
  · by_cases h38 : p = 38
    · subst h38
      rw [SgrComposer.parseStep_38] at h
      revert h
      split
      · intro h
        injection h with h2
        cases h2
        try simp only [List.length_cons]
        omega
      · intro h
        injection h with h2
        cases h2
        try simp only [List.length_cons]
        omega
      · intro h
        injection h with h2
        cases h2
        try simp only [List.length_cons]
        omega
    · by_cases h48 : p = 48
      · subst h48
        rw [SgrComposer.parseStep_48] at h
        revert h
        split
        · intro h
          injection h with h2
          cases h2
          try simp only [List.length_cons]
          omega
        · intro h
          injection h with h2
          cases h2
          try simp only [List.length_cons]
          omega
        · intro h
          injection h with h2
          cases h2
          try simp only [List.length_cons]
          omega
      · obtain ⟨a3, heq⟩ := SgrComposer.parseStep_cases a p rest h0 h38 h48
        rw [heq] at h
        injection h with h2
        cases h2
        try simp only [List.length_cons]
        omega

/-- The fuel of `parseGo` is irrelevant once it is at least the length of
the parameter list. -/
theorem SgrComposer.parseGo_fuel : ∀ (n : Nat) (l : List Nat), l.length ≤ n →
    ∀ (f g : Nat) (a : SgrAttributes), l.length ≤ f → l.length ≤ g →
    SgrComposer.parseGo f a l = SgrComposer.parseGo g a l := by
  intro n
  induction n with
  | zero =>
    intro l hl f g a _ _
    have : l = [] := List.length_eq_zero.mp (by omega)
    subst this
    rw [SgrComposer.parseGo_nil, SgrComposer.parseGo_nil]
  | succ n ih =>
    intro l hl f g a hf hg
    cases l with
    | nil => rw [SgrComposer.parseGo_nil, SgrComposer.parseGo_nil]
    | cons p rest =>
      simp only [List.length_cons] at hl hf hg
      obtain ⟨f2, rfl⟩ : ∃ f2, f = f2 + 1 := ⟨f - 1, by omega⟩
      obtain ⟨g2, rfl⟩ : ∃ g2, g = g2 + 1 := ⟨g - 1, by omega⟩
      rw [SgrComposer.parseGo_cons, SgrComposer.parseGo_cons]
      rcases hstep : SgrComposer.parseStep a p rest with _ | ⟨a2, r2⟩
      · rfl
      · have hlen := SgrComposer.parseStep_length a p rest a2 r2 hstep
        exact ih r2 (by omega) f2 g2 a2 (by omega) (by omega)

/-- `parseGo` with its canonical fuel, the length of the list. -/
def SgrComposer.parseFrom (a : SgrAttributes) (l : List Nat) : SgrAttributes :=
  SgrComposer.parseGo l.length a l

/-- `parse` is `parseFrom` of the empty record. -/
theorem SgrComposer.parse_eq_parseFrom (l : List Nat) :
    SgrComposer.parse l = SgrComposer.parseFrom {} l := rfl

/-- `parseFrom` on an exhausted list. -/
theorem SgrComposer.parseFrom_nil (a : SgrAttributes) :
    SgrComposer.parseFrom a [] = a := rfl

/-- Fuel-free recursion equation for the parameter scan. -/
theorem SgrComposer.parseFrom_cons (a : SgrAttributes) (p : Nat) (rest : List Nat) :
    SgrComposer.parseFrom a (p :: rest) =
      match SgrComposer.parseStep a p rest with
      | none => {}
      | some (a2, r2) => SgrComposer.parseFrom a2 r2 := by
  unfold SgrComposer.parseFrom
  rw [show (p :: rest).length = rest.length + 1 from rfl, SgrComposer.parseGo_cons]
  rcases hstep : SgrComposer.parseStep a p rest with _ | ⟨a2, r2⟩
  · rfl
  · simp only []
    exact SgrComposer.parseGo_fuel rest.length r2
      (SgrComposer.parseStep_length a p rest a2 r2 hstep) rest.length r2.length a2
      (SgrComposer.parseStep_length a p rest a2 r2 hstep) le_rfl

/-! ## Helper lemmas about composition -/

/-- Overlaying the empty record changes nothing. -/
theorem SgrComposer.compose_empty_right (b : SgrAttributes) :
    SgrComposer.compose b {} = b := rfl

/-- `composeField` with an absent base field yields the overlay field. -/
theorem SgrComposer.composeField_none_left {α : Type} (o : Option α) :
    SgrComposer.composeField none o = o := by
  cases o <;> rfl

/-- Composing onto the empty record yields the overlay. -/
theorem SgrComposer.compose_empty_left (o : SgrAttributes) :
    SgrComposer.compose {} o = o := by
  apply SgrAttributes.ext <;>
    simp [SgrComposer.compose, SgrComposer.composeField_none_left]

/-- The scan returns the empty record whenever it reaches a 0 that is not
hidden inside the sub-parameters of a 38/48 extended-color introducer;
everything accumulated before the 0 and everything after it is discarded. -/
theorem SgrComposer.parseFrom_append_zero : ∀ (l1 : List Nat) (a : SgrAttributes)
    (l2 : List Nat), 38 ∉ l1 → 48 ∉ l1 →
    SgrComposer.parseFrom a (l1 ++ 0 :: l2) = {} := by
  intro l1
  induction l1 with
  | nil =>
    intro a l2 _ _
    rw [List.nil_append, SgrComposer.parseFrom_cons, SgrComposer.parseStep_zero]
  | cons p l1 ih =>
    intro a l2 h38 h48
    rw [List.cons_append, SgrComposer.parseFrom_cons]
    by_cases h0 : p = 0
    · subst h0
      rw [SgrComposer.parseStep_zero]
    · obtain ⟨a2, heq⟩ := SgrComposer.parseStep_cases a p (l1 ++ 0 :: l2) h0
        (by intro hp; exact h38 (by simp [hp])) (by intro hp; exact h48 (by simp [hp]))
      rw [heq]
      exact ih a2 l2 (fun h => h38 (List.mem_cons_of_mem p h))
        (fun h => h48 (List.mem_cons_of_mem p h))

/-! ## The claims -/

/-- C1 — split-chunk idempotence fails on the code: writing `"A\x1b[3"`
then `"1mB"` is not equivalent to writing `"A\x1b[31mB"`.  The `write`
loop processes the whole combined string before `getIncompleteSequence` is
consulted, so the trailing incomplete CSI fragment `"\x1b[3"` is consumed
as an ignored ESC plus the printable glyphs `[` and `3`, and then buffered
and processed a second time with the next chunk.  The combined write
renders `"A\x1b[31mB\x1b[0m"`; the split writes render
`"A[3\x1b[31mB\x1b[0m"` and leave different cells. -/
theorem C1_split_chunk_write_divergence :
    StreamingTerminal.renderLine (StreamingTerminal.write false emptyTerminal "A\x1b[31mB").term
        = "A\x1b[31mB\x1b[0m" ∧
    StreamingTerminal.renderLine
        (StreamingTerminal.writeAll false emptyTerminal ["A\x1b[3", "1mB"])
        = "A[3\x1b[31mB\x1b[0m" ∧
    (StreamingTerminal.writeAll false emptyTerminal ["A\x1b[3", "1mB"]).cells ≠
      (StreamingTerminal.write false emptyTerminal "A\x1b[31mB").term.cells := by
  decide

/-- C5 counterexample — a parameter list containing 0 whose parse is not
the empty record: in `[38, 5, 0]` the 0 is consumed as the 256-color
sub-parameter of the 38 introducer and becomes `fg = 0`. -/
theorem C5_reset_param_counterexample :
    (0 : Nat) ∈ [38, 5, 0] ∧ SgrComposer.parse [38, 5, 0] ≠ ({} : SgrAttributes) := by
  decide

/-- C5 (amended) — for every parameter list in which a 0 occurs at a
position the left-to-right scan visits — in particular whenever no 38 or
48 occurs before the 0 — SGR parse returns the empty attribute record,
discarding all parameters both before and after the 0. -/
theorem C5_reset_param_amended (l1 l2 : List Nat) (h38 : 38 ∉ l1) (h48 : 48 ∉ l1) :
    SgrComposer.parse (l1 ++ 0 :: l2) = {} := by
  rw [SgrComposer.parse_eq_parseFrom]
  exact SgrComposer.parseFrom_append_zero l1 {} l2 h38 h48

/-- C5 witness — the amended theorem at `l1 = [1, 31]`, `l2 = [4]`. -/
theorem C5_reset_param_witness :
    ((38 : Nat) ∉ [1, 31] ∧ (48 : Nat) ∉ [1, 31]) ∧
      SgrComposer.parse ([1, 31] ++ 0 :: [4]) = {} :=
  ⟨by decide, C5_reset_param_amended [1, 31] [4] (by decide) (by decide)⟩

/-- C7 counterexample — `dispose` does not return the terminal to its
created-empty state: after writing `"AB"` and disposing, the cursor is
still 2. -/
theorem C7_dispose_counterexample :
    StreamingTerminal.dispose (StreamingTerminal.write false emptyTerminal "AB").term
        ≠ emptyTerminal ∧
    (StreamingTerminal.dispose (StreamingTerminal.write false emptyTerminal "AB").term).cursor
        = 2 := by
  decide

/-- C7 (amended) — `dispose()` clears the cells, the active SGR and the
incomplete-sequence buffer, and leaves the cursor and the saved cursor
unchanged. -/
theorem C7_dispose_amended (t : Terminal) :
    (StreamingTerminal.dispose t).cells = [] ∧
    (StreamingTerminal.dispose t).activeSgr = {} ∧
    (StreamingTerminal.dispose t).incompleteSequence = "" ∧
    (StreamingTerminal.dispose t).cursor = t.cursor ∧
    (StreamingTerminal.dispose t).savedCursor = t.savedCursor :=
  ⟨rfl, rfl, rfl, rfl, rfl⟩

/-- C8 — erase start-to-cursor scenario: from an empty terminal, writing
`"ABCDEFGH"`, `"\x1b[5G"`, `"\x1b[1K\n"` renders `"     FGH"` (five spaces
then FGH, length 8); the 1K erase set cells 0 through the cursor position
4 inclusive to Empty, and the cursor was not reset. -/
theorem C8_erase_start_scenario :
    StreamingTerminal.renderLine
        (StreamingTerminal.writeAll false emptyTerminal ["ABCDEFGH", "\x1b[5G", "\x1b[1K\n"])
        = "     FGH" ∧
    (StreamingTerminal.renderLine
        (StreamingTerminal.writeAll false emptyTerminal
          ["ABCDEFGH", "\x1b[5G", "\x1b[1K\n"])).length = 8 ∧
    (StreamingTerminal.writeAll false emptyTerminal
        ["ABCDEFGH", "\x1b[5G", "\x1b[1K\n"]).cursor = 4 ∧
    (StreamingTerminal.writeAll false emptyTerminal
        ["ABCDEFGH", "\x1b[5G", "\x1b[1K\n"]).cells.take 5 = List.replicate 5 none ∧
    (StreamingTerminal.writeAll false emptyTerminal
        ["ABCDEFGH", "\x1b[5G", "\x1b[1K\n"]).cells.length = 8 := by
  decide

/-- C2 counterexample — the cursor bound fails: after writing `"AB"` and
then `"\x1b[3C"` (cursor forward 3) from an empty terminal, the cursor is
5 while the cell list still has length 2. -/
theorem C2_cursor_exceeds_cells_counterexample :
    (StreamingTerminal.writeAll false emptyTerminal ["AB", "\x1b[3C"]).cells.length <
      (StreamingTerminal.writeAll false emptyTerminal ["AB", "\x1b[3C"]).cursor := by
  decide

/-- C3 counterexample — with a timeout strategy the transform adapter
flushes on `onWrite = true` without consulting `hasContent`: the chunk
`"a\n"` produces two emissions, the synchronous newline-path line `"a"`
and a second blank line from the strategy's return-true path, even though
the terminal has no content after the inline emission. -/
theorem C3_flush_guard_counterexample :
    (TerminalTransform.transformChunk TimeoutStrategy.onWrite emptyTerminal "a\n").2
        = ["a", ""] ∧
    TimeoutStrategy.onWrite (StreamingTerminal.write true emptyTerminal "a\n").term
        (StreamingTerminal.write true emptyTerminal "a\n").state = true ∧
    StreamingTerminal.hasContent (StreamingTerminal.write true emptyTerminal "a\n").term
        = false := by
  decide

/-- C6 counterexample — a chunk without control or escape bytes can still
change `active_sgr` when the terminal carries a buffered incomplete
sequence: after `write "\x1b[3"` the buffer holds `"\x1b[3"`, and the
pure-text chunk `"1m"` then completes `ESC[31m`. -/
theorem C6_pure_text_counterexample :
    (∀ c ∈ "1m".toList, ' ' ≤ c) ∧
    (StreamingTerminal.write false (StreamingTerminal.write false emptyTerminal "\x1b[3").term
        "1m").term.activeSgr ≠
      (StreamingTerminal.write false emptyTerminal "\x1b[3").term.activeSgr := by
  decide

/-- C10 — `renderLine` is a pure observer: the call returns the receiver
unchanged, two consecutive calls return the same string, and the rendered
string depends only on the cells. -/
theorem C10_renderLine_pure :
    (∀ t : Terminal, (StreamingTerminal.renderLineCall t).2 = t) ∧
    (∀ t : Terminal, (StreamingTerminal.renderLineCall t).1 =
      (StreamingTerminal.renderLineCall (StreamingTerminal.renderLineCall t).2).1) ∧
    (∀ t t2 : Terminal, t.cells = t2.cells →
      StreamingTerminal.renderLine t = StreamingTerminal.renderLine t2) := by
  refine ⟨fun t => rfl, fun t => rfl, fun t t2 h => ?_⟩
  unfold StreamingTerminal.renderLine
  rw [h]

/-- C10 witness — the cells-only dependence applied to the empty terminal
and a disposed empty terminal. -/
theorem C10_renderLine_pure_witness :
    emptyTerminal.cells = (StreamingTerminal.dispose emptyTerminal).cells ∧
    StreamingTerminal.renderLine emptyTerminal =
      StreamingTerminal.renderLine (StreamingTerminal.dispose emptyTerminal) :=
  ⟨rfl, C10_renderLine_pure.2.2 emptyTerminal (StreamingTerminal.dispose emptyTerminal) rfl⟩

/-- C3 (amended) — `_transform` calls `terminal.write` then
`strategy.onWrite` and flushes whenever the strategy returns true, with no
`hasContent` guard (that guard exists only in the end-of-stream `_flush`):
with the default Immediate strategy a chunk's emissions are exactly the
synchronous newline-path lines, and the end-of-stream flush emits nothing
when the terminal has no content. -/
theorem C3_transform_amended :
    (∀ (t : Terminal) (chunk : String),
      TerminalTransform.transformChunk ImmediateStrategy.onWrite t chunk =
        ((StreamingTerminal.write true t chunk).term,
         (StreamingTerminal.write true t chunk).lines)) ∧
    (∀ (shouldFlush : Bool) (t : Terminal), StreamingTerminal.hasContent t = false →
      (TerminalTransform.flushEnd shouldFlush t).2 = []) := by
  constructor
  · intro t chunk
    rfl
  · intro fl t h
    unfold TerminalTransform.flushEnd
    rw [h]
    simp

/-- C3 witness — the flush guard applied to the empty terminal. -/
theorem C3_transform_witness :
    StreamingTerminal.hasContent emptyTerminal = false ∧
    (TerminalTransform.flushEnd true emptyTerminal).2 = [] :=
  ⟨rfl, C3_transform_amended.2 true emptyTerminal rfl⟩

/-- A chunk of printable characters only tokenizes to printable tokens. -/
theorem AnsiParser.tokenize_printable : ∀ (s : List Char), (∀ c ∈ s, ' ' ≤ c) →
    AnsiParser.tokenize s = s.map Tok.printable := by
  intro s
  induction s with
  | nil => intro _; rfl
  | cons c rest ih =>
    intro h
    have hc : ' ' ≤ c := h c (List.mem_cons_self c rest)
    have h1 : c ≠ '\n' := fun hh => by rw [hh] at hc; exact absurd hc (by decide)
    have h2 : c ≠ '\r' := fun hh => by rw [hh] at hc; exact absurd hc (by decide)
    have h3 : c ≠ '\t' := fun hh => by rw [hh] at hc; exact absurd hc (by decide)
    have h4 : c ≠ '\x08' := fun hh => by rw [hh] at hc; exact absurd hc (by decide)
    have h5 : c ≠ '\x1b' := fun hh => by rw [hh] at hc; exact absurd hc (by decide)
    have hp : AnsiParser.parseNext (c :: rest) = some (Tok.printable c, 1) := by
      simp [AnsiParser.parseNext, h1, h2, h3, h4, h5, hc]
    show AnsiParser.tokenizeGo (rest.length + 1) (c :: rest) = _
    rw [AnsiParser.tokenizeGo, hp]
    simp only [List.drop_succ_cons, List.drop_zero, List.map_cons]
    exact congrArg _ (ih fun x hx => h x (List.mem_cons_of_mem c hx))

/-- Printable tokens never touch `activeSgr` or `savedCursor`. -/
theorem StreamingTerminal.foldl_printable_frame : ∀ (toks : List Tok) (cb : Bool)
    (w : WriteResult), (∀ tok ∈ toks, ∃ c, tok = Tok.printable c) →
    ((toks.foldl (StreamingTerminal.applyTok cb) w).term.activeSgr = w.term.activeSgr ∧
     (toks.foldl (StreamingTerminal.applyTok cb) w).term.savedCursor = w.term.savedCursor) := by
  intro toks
  induction toks with
  | nil => intro cb w _; exact ⟨rfl, rfl⟩
  | cons tok rest ih =>
    intro cb w h
    obtain ⟨c, rfl⟩ := h tok (List.mem_cons_self tok rest)
    rw [List.foldl_cons]
    exact ih cb (StreamingTerminal.applyTok cb w (Tok.printable c))
      (fun x hx => h x (List.mem_cons_of_mem _ hx))

/-- C6 (amended) — for every terminal state whose incomplete-sequence
buffer is empty, a `write` whose chunk contains no control characters and
no ESC bytes (every character is at least U+0020) leaves `active_sgr` and
`saved_cursor` unchanged. -/
theorem C6_pure_text_frame_amended (cb : Bool) (t : Terminal) (chunk : String)
    (hinc : t.incompleteSequence = "") (hch : ∀ c ∈ chunk.toList, ' ' ≤ c) :
    (StreamingTerminal.write cb t chunk).term.activeSgr = t.activeSgr ∧
    (StreamingTerminal.write cb t chunk).term.savedCursor = t.savedCursor := by
  obtain ⟨cs, cur, sgr, sv, inc⟩ := t
  obtain rfl : inc = "" := hinc
  simp only [StreamingTerminal.write]
  rw [show ("" : String) ++ chunk = chunk from rfl]
  rw [AnsiParser.tokenize_printable chunk.toList hch]
  have hfr := StreamingTerminal.foldl_printable_frame (chunk.toList.map Tok.printable) cb
    { term := { cells := cs, cursor := cur, activeSgr := sgr, savedCursor := sv,
                incompleteSequence := "" },
      state := { hadNewline := false, hadCarriageReturn := false, hadCursorMovement := false,
                 hadErasure := false, cursorPosition := cur, cellCount := cs.length },
      lines := [] }
    (by intro tok htok; simp only [List.mem_map] at htok; obtain ⟨c, _, rfl⟩ := htok
        exact ⟨c, rfl⟩)
  exact ⟨hfr.1, hfr.2⟩

/-- JS element assignment grows the array exactly to cover the index. -/
theorem setCell_length (cs : List (Option Cell)) (i : Nat) (v : Option Cell) :
    (setCell cs i v).length = max cs.length (i + 1) := by
  unfold setCell
  split_ifs with h
  · rw [List.length_set]
    omega
  · simp only [List.length_append, List.length_replicate, List.length_singleton]
    omega

/-- Writing `n ≥ 1` cells starting at `start` leaves at least `start + n`
cells. -/
theorem foldl_setCell_length (n : Nat) (start : Nat) (v : Option Cell)
    (cs : List (Option Cell)) (hn : 1 ≤ n) :
    start + n ≤
      ((List.range n).foldl (fun acc j => setCell acc (start + j) v) cs).length := by
  obtain ⟨m, rfl⟩ : ∃ m, n = m + 1 := ⟨n - 1, by omega⟩
  rw [List.range_succ, List.foldl_append, List.foldl_cons, List.foldl_nil]
  rw [setCell_length]
  omega

/-- Tokens that an escape-free chunk can produce: printable characters and
the four recognised control characters. -/
def SimpleTok (tok : Tok) : Prop :=
  (∃ c, tok = Tok.printable c) ∨ tok = Tok.control '\n' ∨ tok = Tok.control '\r' ∨
    tok = Tok.control '\t' ∨ tok = Tok.control '\x08'

/-- An escape-free chunk tokenizes to printable and control tokens only. -/
theorem AnsiParser.tokenize_no_esc : ∀ (s : List Char), '\x1b' ∉ s →
    ∀ tok ∈ AnsiParser.tokenize s, SimpleTok tok := by
  intro s
  induction s with
  | nil => intro _ tok htok; cases htok
  | cons c rest ih =>
    intro h tok htok
    have hc : c ≠ '\x1b' := fun hh => h (by rw [hh]; exact List.mem_cons_self _ _)
    have hr : '\x1b' ∉ rest := fun hh => h (List.mem_cons_of_mem c hh)
    by_cases h1 : c = '\n' ∨ c = '\r' ∨ c = '\t' ∨ c = '\x08'
    · rcases h1 with hh | hh | hh | hh
      · subst hh
        rw [show AnsiParser.tokenize ('\n' :: rest)
              = Tok.control '\n' :: AnsiParser.tokenize rest from rfl] at htok
        rcases List.mem_cons.mp htok with rfl | htok
        · exact Or.inr (Or.inl rfl)
        · exact ih hr tok htok
      · subst hh
        rw [show AnsiParser.tokenize ('\r' :: rest)
              = Tok.control '\r' :: AnsiParser.tokenize rest from rfl] at htok
        rcases List.mem_cons.mp htok with rfl | htok
        · exact Or.inr (Or.inr (Or.inl rfl))
        · exact ih hr tok htok
      · subst hh
        rw [show AnsiParser.tokenize ('\t' :: rest)
              = Tok.control '\t' :: AnsiParser.tokenize rest from rfl] at htok
        rcases List.mem_cons.mp htok with rfl | htok
        · exact Or.inr (Or.inr (Or.inr (Or.inl rfl)))
        · exact ih hr tok htok
      · subst hh
        rw [show AnsiParser.tokenize ('\x08' :: rest)
              = Tok.control '\x08' :: AnsiParser.tokenize rest from rfl] at htok
        rcases List.mem_cons.mp htok with rfl | htok
        · exact Or.inr (Or.inr (Or.inr (Or.inr rfl)))
        · exact ih hr tok htok
    · push_neg at h1
      obtain ⟨h1, h2, h3, h4⟩ := h1
      have hp : AnsiParser.parseNext (c :: rest) =
          if ' ' ≤ c || '\x7f' < c then some (Tok.printable c, 1) else none := by
        simp [AnsiParser.parseNext, h1, h2, h3, h4, hc]
      rw [show AnsiParser.tokenize (c :: rest)
            = AnsiParser.tokenizeGo (rest.length + 1) (c :: rest) from rfl,
          AnsiParser.tokenizeGo, hp] at htok
      by_cases hpr : (' ' ≤ c || '\x7f' < c : Bool)
      · rw [if_pos hpr] at htok
        simp only [List.drop_succ_cons, List.drop_zero] at htok
        rcases List.mem_cons.mp htok with rfl | htok
        · exact Or.inl ⟨c, rfl⟩
        · exact ih hr tok htok
      · rw [if_neg hpr] at htok
        exact ih hr tok htok

/-- Printable and control tokens preserve `cursor ≤ cells.length`. -/
theorem StreamingTerminal.applyTok_simple_inv (cb : Bool) (w : WriteResult) (tok : Tok)
    (hst : SimpleTok tok) (hw : w.term.cursor ≤ w.term.cells.length) :
    (StreamingTerminal.applyTok cb w tok).term.cursor ≤
      (StreamingTerminal.applyTok cb w tok).term.cells.length := by
  rcases hst with ⟨c, rfl⟩ | rfl | rfl | rfl | rfl
  · show w.term.cursor + 1 ≤
      (setCell w.term.cells w.term.cursor (some ⟨c, w.term.activeSgr⟩)).length
    rw [setCell_length]
    omega
  · show (StreamingTerminal.applyControl cb w '\n').term.cursor ≤
      (StreamingTerminal.applyControl cb w '\n').term.cells.length
    unfold StreamingTerminal.applyControl
    rw [if_neg (show ¬('\n' : Char) = '\r' by decide), if_pos rfl]
    cases cb
    · exact hw
    · exact Nat.le_refl 0
  · show (StreamingTerminal.applyControl cb w '\r').term.cursor ≤
      (StreamingTerminal.applyControl cb w '\r').term.cells.length
    unfold StreamingTerminal.applyControl
    rw [if_pos rfl]
    exact Nat.zero_le _
  · show (StreamingTerminal.applyControl cb w '\t').term.cursor ≤
      (StreamingTerminal.applyControl cb w '\t').term.cells.length
    unfold StreamingTerminal.applyControl
    rw [if_neg (show ¬('\t' : Char) = '\r' by decide),
      if_neg (show ¬('\t' : Char) = '\n' by decide),
      if_neg (show ¬('\t' : Char) = '\x08' by decide), if_pos rfl]
    have hlt : w.term.cursor < (w.term.cursor / 8 + 1) * 8 := by omega
    have hlen := foldl_setCell_length ((w.term.cursor / 8 + 1) * 8 - w.term.cursor)
      w.term.cursor (some ⟨' ', w.term.activeSgr⟩) w.term.cells (by omega)
    show (w.term.cursor / 8 + 1) * 8 ≤
      (List.foldl (fun cs j => setCell cs (w.term.cursor + j)
        (some ⟨' ', w.term.activeSgr⟩)) w.term.cells
        (List.range ((w.term.cursor / 8 + 1) * 8 - w.term.cursor))).length
    omega
  · show (StreamingTerminal.applyControl cb w '\x08').term.cursor ≤
      (StreamingTerminal.applyControl cb w '\x08').term.cells.length
    unfold StreamingTerminal.applyControl
    rw [if_neg (show ¬('\x08' : Char) = '\r' by decide),
      if_neg (show ¬('\x08' : Char) = '\n' by decide), if_pos rfl]
    show w.term.cursor - 1 ≤ w.term.cells.length
    omega

/-- The cursor bound is preserved along a run of simple tokens. -/
theorem StreamingTerminal.foldl_simple_inv : ∀ (toks : List Tok) (cb : Bool)
    (w : WriteResult), (∀ tok ∈ toks, SimpleTok tok) →
    w.term.cursor ≤ w.term.cells.length →
    (toks.foldl (StreamingTerminal.applyTok cb) w).term.cursor ≤
      (toks.foldl (StreamingTerminal.applyTok cb) w).term.cells.length := by
  intro toks
  induction toks with
  | nil => intro cb w _ hw; exact hw
  | cons tok rest ih =>
    intro cb w h hw
    rw [List.foldl_cons]
    exact ih cb _ (fun x hx => h x (List.mem_cons_of_mem _ hx))
      (StreamingTerminal.applyTok_simple_inv cb w tok (h tok (List.mem_cons_self _ _)) hw)

/-- An escape-free string leaves nothing to buffer. -/
theorem AnsiParser.getIncomplete_no_esc (s : List Char) (h : '\x1b' ∉ s) :
    AnsiParser.getIncompleteSequence s = [] := by
  unfold AnsiParser.getIncompleteSequence
  rw [if_neg (show ¬ s.getLast? = some '\x1b' from
    fun hl => h (List.mem_of_mem_getLast? hl))]
  dsimp only
  split
  all_goals try rfl
  all_goals
    rename_i heq
    exfalso
    apply h
    rw [← List.mem_reverse]
    refine List.mem_of_mem_drop
      (n := (s.reverse.takeWhile AnsiParser.isCsiParamChar).length) ?_
    rw [heq]
    simp

/-- One escape-free `write` preserves the cursor bound and the empty
incomplete buffer. -/
theorem StreamingTerminal.write_no_esc_inv (cb : Bool) (t : Terminal) (chunk : String)
    (hinc : t.incompleteSequence = "") (hesc : '\x1b' ∉ chunk.toList)
    (ht : t.cursor ≤ t.cells.length) :
    ((StreamingTerminal.write cb t chunk).term.cursor ≤
      (StreamingTerminal.write cb t chunk).term.cells.length) ∧
    (StreamingTerminal.write cb t chunk).term.incompleteSequence = "" := by
  obtain ⟨cs, cur, sgr, sv, inc⟩ := t
  obtain rfl : inc = "" := hinc
  constructor
  · exact StreamingTerminal.foldl_simple_inv _ cb _
      (AnsiParser.tokenize_no_esc _ hesc) ht
  · show String.mk (AnsiParser.getIncompleteSequence chunk.toList) = ""
    rw [AnsiParser.getIncomplete_no_esc chunk.toList hesc]

/-- A sequence of escape-free writes preserves the cursor bound and the
empty incomplete buffer. -/
theorem StreamingTerminal.writeAll_no_esc_inv : ∀ (chunks : List String) (cb : Bool)
    (t : Terminal), (∀ ch ∈ chunks, '\x1b' ∉ ch.toList) → t.incompleteSequence = "" →
    t.cursor ≤ t.cells.length →
    ((StreamingTerminal.writeAll cb t chunks).cursor ≤
      (StreamingTerminal.writeAll cb t chunks).cells.length ∧
     (StreamingTerminal.writeAll cb t chunks).incompleteSequence = "") := by
  intro chunks
  induction chunks with
  | nil => intro cb t _ h2 h3; exact ⟨h3, h2⟩
  | cons ch rest ih =>
    intro cb t h h2 h3
    have hw := StreamingTerminal.write_no_esc_inv cb t ch h2
      (h ch (List.mem_cons_self _ _)) h3
    exact ih cb _ (fun x hx => h x (List.mem_cons_of_mem _ hx)) hw.2 hw.1

/-- C2 (amended) — the upper bound of the cursor invariant holds for
escape-free input: for every sequence of writes of chunks containing no
ESC byte on a terminal created empty, after each write
`cursor ≤ cells.length` (the lower bound `0 ≤ cursor` holds by the
clamping `Math.max(0, ·)`, modelled by truncated `Nat` subtraction).  In
general the bound is false: cursor-forward, cursor-absolute and
cursor-restore sequences move the cursor past the end without
materialising cells. -/
theorem C2_cursor_bound_amended (cb : Bool) (chunks : List String)
    (hesc : ∀ ch ∈ chunks, '\x1b' ∉ ch.toList) :
    (StreamingTerminal.writeAll cb emptyTerminal chunks).cursor ≤
      (StreamingTerminal.writeAll cb emptyTerminal chunks).cells.length :=
  (StreamingTerminal.writeAll_no_esc_inv chunks cb emptyTerminal hesc rfl (Nat.le_refl 0)).1

/-- C2 witness — the amended bound after writing `"ab"` then `"\rc"`. -/
theorem C2_cursor_bound_witness :
    (∀ ch ∈ ["ab", "\rc"], '\x1b' ∉ ch.toList) ∧
    (StreamingTerminal.writeAll false emptyTerminal ["ab", "\rc"]).cursor ≤
      (StreamingTerminal.writeAll false emptyTerminal ["ab", "\rc"]).cells.length :=
  ⟨by decide, C2_cursor_bound_amended false ["ab", "\rc"] (by decide)⟩

/-- C6 witness — the amended frame condition for the chunk `"hi"` on the
empty terminal. -/
theorem C6_pure_text_frame_witness :
    (emptyTerminal.incompleteSequence = "" ∧ ∀ c ∈ "hi".toList, ' ' ≤ c) ∧
    ((StreamingTerminal.write false emptyTerminal "hi").term.activeSgr =
        emptyTerminal.activeSgr ∧
     (StreamingTerminal.write false emptyTerminal "hi").term.savedCursor =
        emptyTerminal.savedCursor) :=
  ⟨⟨rfl, by decide⟩, C6_pure_text_frame_amended false emptyTerminal "hi" rfl (by decide)⟩

/-- C9 — compose identities make `ESC[0m` a no-op on the terminal's
active SGR: composing with the empty record on either side is the
identity, and since the parse of a parameter list containing a scanned 0
is the empty record, processing the sequence `ESC[0m` leaves `active_sgr`
exactly unchanged rather than resetting it (shown for any terminal whose
incomplete-sequence buffer is empty, with or without a line callback). -/
theorem C9_sgr_zero_noop :
    (∀ b : SgrAttributes, SgrComposer.compose b {} = b) ∧
    (∀ o : SgrAttributes, SgrComposer.compose {} o = o) ∧
    (∀ (cb : Bool) (t : Terminal), t.incompleteSequence = "" →
      (StreamingTerminal.write cb t "\x1b[0m").term.activeSgr = t.activeSgr) := by
  refine ⟨SgrComposer.compose_empty_right, SgrComposer.compose_empty_left, ?_⟩
  intro cb t h
  obtain ⟨cs, cur, sgr, sv, inc⟩ := t
  obtain rfl : inc = "" := h
  rfl

/-- C9 witness — `ESC[0m` on a freshly created terminal. -/
theorem C9_sgr_zero_noop_witness :
    emptyTerminal.incompleteSequence = "" ∧
    (StreamingTerminal.write false emptyTerminal "\x1b[0m").term.activeSgr =
      emptyTerminal.activeSgr :=
  ⟨rfl, C9_sgr_zero_noop.2.2 false emptyTerminal rfl⟩

/-- A byte-sized value has no bits at position 8 or above. -/
theorem testBit_small (x k : Nat) (hx : x ≤ 255) (hk : 8 ≤ k) : x.testBit k = false :=
  Nat.testBit_lt_two_pow
    (lt_of_le_of_lt hx (lt_of_lt_of_le (by norm_num) (Nat.pow_le_pow_right (by norm_num) hk)))

/-- A palette color never carries the bit-24 RGB marker. -/
theorem land_flag_small (c : Nat) (h : c ≤ 255) : c &&& 0x1000000 = 0 := by
  rw [show (0x1000000 : Nat) = 2 ^ 24 by norm_num, Nat.and_two_pow,
    Nat.testBit_lt_two_pow (lt_of_le_of_lt h (by norm_num))]
  rfl

/-- An encoded RGB color always carries the bit-24 marker. -/
theorem rgb_flag (r g b : Nat) : SgrComposer.rgbEncode r g b &&& 0x1000000 ≠ 0 := by
  have h : (SgrComposer.rgbEncode r g b).testBit 24 = true := by
    unfold SgrComposer.rgbEncode
    rw [show (0x1000000 : Nat) = 2 ^ 24 by norm_num]
    simp only [Nat.testBit_lor, Nat.testBit_two_pow]
    simp
  rw [show (0x1000000 : Nat) = 2 ^ 24 by norm_num, Nat.and_two_pow, h]
  norm_num

/-- The red component round-trips through the packed encoding. -/
theorem rgb_extract_r (r g b : Nat) (hr : r ≤ 255) (hg : g ≤ 255) (hb : b ≤ 255) :
    (SgrComposer.rgbEncode r g b >>> 16) &&& 0xff = r := by
  apply Nat.eq_of_testBit_eq
  intro i
  rw [show (0xff : Nat) = 2 ^ 8 - 1 by norm_num, Nat.testBit_land,
    Nat.testBit_two_pow_sub_one, Nat.testBit_shiftRight]
  unfold SgrComposer.rgbEncode
  rw [show (0x1000000 : Nat) = 2 ^ 24 by norm_num]
  simp only [Nat.testBit_lor, Nat.testBit_shiftLeft, Nat.testBit_two_pow]
  by_cases hi : i < 8
  · have hgb : Nat.testBit g (16 + i - 8) = false := testBit_small g _ hg (by omega)
    have hbb : Nat.testBit b (16 + i) = false := testBit_small b _ hb (by omega)
    simp [hi, hgb, hbb, show (16 : Nat) ≤ 16 + i by omega,
      show 16 + i - 16 = i by omega, show ¬ (24 = 16 + i) by omega]
  · have hrb : Nat.testBit r i = false := testBit_small r _ hr (by omega)
    simp [hi, hrb]

/-- The green component round-trips through the packed encoding. -/
theorem rgb_extract_g (r g b : Nat) (_hr : r ≤ 255) (hg : g ≤ 255) (hb : b ≤ 255) :
    (SgrComposer.rgbEncode r g b >>> 8) &&& 0xff = g := by
  apply Nat.eq_of_testBit_eq
  intro i
  rw [show (0xff : Nat) = 2 ^ 8 - 1 by norm_num, Nat.testBit_land,
    Nat.testBit_two_pow_sub_one, Nat.testBit_shiftRight]
  unfold SgrComposer.rgbEncode
  rw [show (0x1000000 : Nat) = 2 ^ 24 by norm_num]
  simp only [Nat.testBit_lor, Nat.testBit_shiftLeft, Nat.testBit_two_pow]
  by_cases hi : i < 8
  · have hbb : Nat.testBit b (8 + i) = false := testBit_small b _ hb (by omega)
    simp [hi, hbb, show (8 : Nat) ≤ 8 + i by omega, show ¬ (16 ≤ 8 + i) by omega,
      show 8 + i - 8 = i by omega, show ¬ (24 = 8 + i) by omega]
  · have hgb : Nat.testBit g i = false := testBit_small g _ hg (by omega)
    simp [hi, hgb]

/-- The blue component round-trips through the packed encoding. -/
theorem rgb_extract_b (r g b : Nat) (_hr : r ≤ 255) (_hg : g ≤ 255) (hb : b ≤ 255) :
    SgrComposer.rgbEncode r g b &&& 0xff = b := by
  apply Nat.eq_of_testBit_eq
  intro i
  rw [show (0xff : Nat) = 2 ^ 8 - 1 by norm_num, Nat.testBit_land,
    Nat.testBit_two_pow_sub_one]
  unfold SgrComposer.rgbEncode
  rw [show (0x1000000 : Nat) = 2 ^ 24 by norm_num]
  simp only [Nat.testBit_lor, Nat.testBit_shiftLeft, Nat.testBit_two_pow]
  by_cases hi : i < 8
  · simp [hi, show ¬ (16 ≤ i) by omega, show ¬ (8 ≤ i) by omega,
      show ¬ (24 = i) by omega]
  · have hbb : Nat.testBit b i = false := testBit_small b _ hb (by omega)
    simp [hi, hbb]

/-- Scanning one recognised parameter updates exactly its field. -/
theorem SgrComposer.parseFrom_code1 (a : SgrAttributes) (l : List Nat) :
    SgrComposer.parseFrom a (1 :: l) =
      SgrComposer.parseFrom { a with bold := some true } l := by
  rw [SgrComposer.parseFrom_cons]
  rfl

theorem SgrComposer.parseFrom_code2 (a : SgrAttributes) (l : List Nat) :
    SgrComposer.parseFrom a (2 :: l) =
      SgrComposer.parseFrom { a with dim := some true } l := by
  rw [SgrComposer.parseFrom_cons]
  rfl

theorem SgrComposer.parseFrom_code3 (a : SgrAttributes) (l : List Nat) :
    SgrComposer.parseFrom a (3 :: l) =
      SgrComposer.parseFrom { a with italic := some true } l := by
  rw [SgrComposer.parseFrom_cons]
  rfl

theorem SgrComposer.parseFrom_code4 (a : SgrAttributes) (l : List Nat) :
    SgrComposer.parseFrom a (4 :: l) =
      SgrComposer.parseFrom { a with underline := some true } l := by
  rw [SgrComposer.parseFrom_cons]
  rfl

theorem SgrComposer.parseFrom_code5 (a : SgrAttributes) (l : List Nat) :
    SgrComposer.parseFrom a (5 :: l) =
      SgrComposer.parseFrom { a with blink := some true } l := by
  rw [SgrComposer.parseFrom_cons]
  rfl

theorem SgrComposer.parseFrom_code7 (a : SgrAttributes) (l : List Nat) :
    SgrComposer.parseFrom a (7 :: l) =
      SgrComposer.parseFrom { a with inverse := some true } l := by
  rw [SgrComposer.parseFrom_cons]
  rfl

theorem SgrComposer.parseFrom_code8 (a : SgrAttributes) (l : List Nat) :
    SgrComposer.parseFrom a (8 :: l) =
      SgrComposer.parseFrom { a with hidden := some true } l := by
  rw [SgrComposer.parseFrom_cons]
  rfl

theorem SgrComposer.parseFrom_code9 (a : SgrAttributes) (l : List Nat) :
    SgrComposer.parseFrom a (9 :: l) =
      SgrComposer.parseFrom { a with strikethrough := some true } l := by
  rw [SgrComposer.parseFrom_cons]
  rfl

/-- A standard foreground code `30+c` sets `fg = c`. -/
theorem SgrComposer.parseFrom_fg_std (a : SgrAttributes) (c : Nat) (hc : c < 8)
    (l : List Nat) :
    SgrComposer.parseFrom a ((30 + c) :: l) =
      SgrComposer.parseFrom { a with fg := some c } l := by
  interval_cases c <;> (rw [SgrComposer.parseFrom_cons]; rfl)

/-- A bright foreground code `90+(c-8)` sets `fg = c`. -/
theorem SgrComposer.parseFrom_fg_bright (a : SgrAttributes) (c : Nat) (hc1 : 8 ≤ c)
    (hc2 : c < 16) (l : List Nat) :
    SgrComposer.parseFrom a ((90 + (c - 8)) :: l) =
      SgrComposer.parseFrom { a with fg := some c } l := by
  interval_cases c <;> (rw [SgrComposer.parseFrom_cons]; rfl)

/-- `38;5;n` sets `fg = n`. -/
theorem SgrComposer.parseFrom_fg_256 (a : SgrAttributes) (n : Nat) (l : List Nat) :
    SgrComposer.parseFrom a (38 :: 5 :: n :: l) =
      SgrComposer.parseFrom { a with fg := some n } l := by
  rw [SgrComposer.parseFrom_cons]
  rfl

/-- `38;2;r;g;b` sets `fg` to the packed RGB value. -/
theorem SgrComposer.parseFrom_fg_rgb (a : SgrAttributes) (r g b : Nat) (l : List Nat) :
    SgrComposer.parseFrom a (38 :: 2 :: r :: g :: b :: l) =
      SgrComposer.parseFrom { a with fg := some (SgrComposer.rgbEncode r g b) } l := by
  rw [SgrComposer.parseFrom_cons]
  rfl

/-- A standard background code `40+c` sets `bg = c`. -/
theorem SgrComposer.parseFrom_bg_std (a : SgrAttributes) (c : Nat) (hc : c < 8)
    (l : List Nat) :
    SgrComposer.parseFrom a ((40 + c) :: l) =
      SgrComposer.parseFrom { a with bg := some c } l := by
  interval_cases c <;> (rw [SgrComposer.parseFrom_cons]; rfl)

/-- A bright background code `100+(c-8)` sets `bg = c`. -/
theorem SgrComposer.parseFrom_bg_bright (a : SgrAttributes) (c : Nat) (hc1 : 8 ≤ c)
    (hc2 : c < 16) (l : List Nat) :
    SgrComposer.parseFrom a ((100 + (c - 8)) :: l) =
      SgrComposer.parseFrom { a with bg := some c } l := by
  interval_cases c <;> (rw [SgrComposer.parseFrom_cons]; rfl)

/-- `48;5;n` sets `bg = n`. -/
theorem SgrComposer.parseFrom_bg_256 (a : SgrAttributes) (n : Nat) (l : List Nat) :
    SgrComposer.parseFrom a (48 :: 5 :: n :: l) =
      SgrComposer.parseFrom { a with bg := some n } l := by
  rw [SgrComposer.parseFrom_cons]
  rfl

/-- `48;2;r;g;b` sets `bg` to the packed RGB value. -/
theorem SgrComposer.parseFrom_bg_rgb (a : SgrAttributes) (r g b : Nat) (l : List Nat) :
    SgrComposer.parseFrom a (48 :: 2 :: r :: g :: b :: l) =
      SgrComposer.parseFrom { a with bg := some (SgrComposer.rgbEncode r g b) } l := by
  rw [SgrComposer.parseFrom_cons]
  rfl

/-- The documented color encoding (spec §3): a palette value `0..=255` or
a bit-24 tagged RGB triple with components `0..=255`. -/
def ValidColor (c : Nat) : Prop :=
  c ≤ 255 ∨ ∃ r g b, r ≤ 255 ∧ g ≤ 255 ∧ b ≤ 255 ∧ c = SgrComposer.rgbEncode r g b

/-- Identify an explicitly-false or unset boolean with unset: only set
fields round-trip. -/
def normBool (b : Option Bool) : Option Bool :=
  if b = some true then some true else none

/-- The attribute record with unset-vs-false boolean distinctions erased. -/
def normalizeSgr (a : SgrAttributes) : SgrAttributes where
  fg := a.fg
  bg := a.bg
  bold := normBool a.bold
  dim := normBool a.dim
  italic := normBool a.italic
  underline := normBool a.underline
  blink := normBool a.blink
  inverse := normBool a.inverse
  hidden := normBool a.hidden
  strikethrough := normBool a.strikethrough

/-- Scanning the emitted code segment of one boolean attribute. -/
theorem SgrComposer.parseFrom_boolSeg_bold (b : Option Bool) (a : SgrAttributes)
    (l : List Nat) :
    SgrComposer.parseFrom a ((if b = some true then [1] else []) ++ l) =
      SgrComposer.parseFrom (if b = some true then { a with bold := some true } else a) l := by
  split_ifs with h
  · exact SgrComposer.parseFrom_code1 a l
  · rfl

theorem SgrComposer.parseFrom_boolSeg_dim (b : Option Bool) (a : SgrAttributes)
    (l : List Nat) :
    SgrComposer.parseFrom a ((if b = some true then [2] else []) ++ l) =
      SgrComposer.parseFrom (if b = some true then { a with dim := some true } else a) l := by
  split_ifs with h
  · exact SgrComposer.parseFrom_code2 a l
  · rfl

theorem SgrComposer.parseFrom_boolSeg_italic (b : Option Bool) (a : SgrAttributes)
    (l : List Nat) :
    SgrComposer.parseFrom a ((if b = some true then [3] else []) ++ l) =
      SgrComposer.parseFrom (if b = some true then { a with italic := some true } else a) l := by
  split_ifs with h
  · exact SgrComposer.parseFrom_code3 a l
  · rfl

theorem SgrComposer.parseFrom_boolSeg_underline (b : Option Bool) (a : SgrAttributes)
    (l : List Nat) :
    SgrComposer.parseFrom a ((if b = some true then [4] else []) ++ l) =
      SgrComposer.parseFrom (if b = some true then { a with underline := some true } else a)
        l := by
  split_ifs with h
  · exact SgrComposer.parseFrom_code4 a l
  · rfl

theorem SgrComposer.parseFrom_boolSeg_blink (b : Option Bool) (a : SgrAttributes)
    (l : List Nat) :
    SgrComposer.parseFrom a ((if b = some true then [5] else []) ++ l) =
      SgrComposer.parseFrom (if b = some true then { a with blink := some true } else a) l := by
  split_ifs with h
  · exact SgrComposer.parseFrom_code5 a l
  · rfl

theorem SgrComposer.parseFrom_boolSeg_inverse (b : Option Bool) (a : SgrAttributes)
    (l : List Nat) :
    SgrComposer.parseFrom a ((if b = some true then [7] else []) ++ l) =
      SgrComposer.parseFrom (if b = some true then { a with inverse := some true } else a) l := by
  split_ifs with h
  · exact SgrComposer.parseFrom_code7 a l
  · rfl

theorem SgrComposer.parseFrom_boolSeg_hidden (b : Option Bool) (a : SgrAttributes)
    (l : List Nat) :
    SgrComposer.parseFrom a ((if b = some true then [8] else []) ++ l) =
      SgrComposer.parseFrom (if b = some true then { a with hidden := some true } else a) l := by
  split_ifs with h
  · exact SgrComposer.parseFrom_code8 a l
  · rfl

theorem SgrComposer.parseFrom_boolSeg_strikethrough (b : Option Bool) (a : SgrAttributes)
    (l : List Nat) :
    SgrComposer.parseFrom a ((if b = some true then [9] else []) ++ l) =
      SgrComposer.parseFrom
        (if b = some true then { a with strikethrough := some true } else a) l := by
  split_ifs with h
  · exact SgrComposer.parseFrom_code9 a l
  · rfl

/-- Scanning the emitted foreground codes of a valid color sets `fg`. -/
theorem SgrComposer.parseFrom_fgSeg (c : Nat) (h : ValidColor c) (a : SgrAttributes)
    (l : List Nat) :
    SgrComposer.parseFrom a
      ((if c &&& 0x1000000 ≠ 0 then
          [38, 2, (c >>> 16) &&& 0xff, (c >>> 8) &&& 0xff, c &&& 0xff]
        else if c < 8 then [30 + c]
        else if c < 16 then [90 + (c - 8)]
        else [38, 5, c]) ++ l) =
      SgrComposer.parseFrom { a with fg := some c } l := by
  rcases h with hle | ⟨r, g, b, hr, hg, hb, rfl⟩
  · rw [if_neg (show ¬ (c &&& 0x1000000 ≠ 0) from fun hne => hne (land_flag_small c hle))]
    by_cases h8 : c < 8
    · rw [if_pos h8]
      exact SgrComposer.parseFrom_fg_std a c h8 l
    · rw [if_neg h8]
      by_cases h16 : c < 16
      · rw [if_pos h16]
        exact SgrComposer.parseFrom_fg_bright a c (by omega) h16 l
      · rw [if_neg h16]
        exact SgrComposer.parseFrom_fg_256 a c l
  · rw [if_pos (rgb_flag r g b)]
    rw [rgb_extract_r r g b hr hg hb, rgb_extract_g r g b hr hg hb,
      rgb_extract_b r g b hr hg hb]
    exact SgrComposer.parseFrom_fg_rgb a r g b l

/-- Scanning the emitted background codes of a valid color sets `bg`. -/
theorem SgrComposer.parseFrom_bgSeg (c : Nat) (h : ValidColor c) (a : SgrAttributes)
    (l : List Nat) :
    SgrComposer.parseFrom a
      ((if c &&& 0x1000000 ≠ 0 then
          [48, 2, (c >>> 16) &&& 0xff, (c >>> 8) &&& 0xff, c &&& 0xff]
        else if c < 8 then [40 + c]
        else if c < 16 then [100 + (c - 8)]
        else [48, 5, c]) ++ l) =
      SgrComposer.parseFrom { a with bg := some c } l := by
  rcases h with hle | ⟨r, g, b, hr, hg, hb, rfl⟩
  · rw [if_neg (show ¬ (c &&& 0x1000000 ≠ 0) from fun hne => hne (land_flag_small c hle))]
    by_cases h8 : c < 8
    · rw [if_pos h8]
      exact SgrComposer.parseFrom_bg_std a c h8 l
    · rw [if_neg h8]
      by_cases h16 : c < 16
      · rw [if_pos h16]
        exact SgrComposer.parseFrom_bg_bright a c (by omega) h16 l
      · rw [if_neg h16]
        exact SgrComposer.parseFrom_bg_256 a c l
  · rw [if_pos (rgb_flag r g b)]
    rw [rgb_extract_r r g b hr hg hb, rgb_extract_g r g b hr hg hb,
      rgb_extract_b r g b hr hg hb]
    exact SgrComposer.parseFrom_bg_rgb a r g b l

/-- The background segment at the end of the code list. -/
theorem SgrComposer.parseFrom_bgSeg_last (c : Nat) (h : ValidColor c) (a : SgrAttributes) :
    SgrComposer.parseFrom a
      (if c &&& 0x1000000 ≠ 0 then
        [48, 2, (c >>> 16) &&& 0xff, (c >>> 8) &&& 0xff, c &&& 0xff]
       else if c < 8 then [40 + c]
       else if c < 16 then [100 + (c - 8)]
       else [48, 5, c]) = { a with bg := some c } := by
  have h2 := SgrComposer.parseFrom_bgSeg c h a []
  rw [List.append_nil] at h2
  rw [h2, SgrComposer.parseFrom_nil]

/-- C4 — SGR round-trip: for every attribute record whose colors lie in
the documented encoding (palette values up to 255 or bit-24 tagged RGB
with byte components), parsing the parameter list produced by
`toSequence` and composing the result onto an empty record reproduces the
record, modulo identifying unset booleans with explicitly-false booleans
(set fields only round-trip). -/
theorem C4_sgr_roundtrip (A : SgrAttributes)
    (hfg : ∀ c, A.fg = some c → ValidColor c)
    (hbg : ∀ c, A.bg = some c → ValidColor c) :
    SgrComposer.compose {} (SgrComposer.parse (SgrComposer.toCodes A)) = normalizeSgr A := by
  rw [SgrComposer.compose_empty_left, SgrComposer.parse_eq_parseFrom]
  unfold SgrComposer.toCodes normalizeSgr
  rcases hAfg : A.fg with _ | cf <;> rcases hAbg : A.bg with _ | cg <;>
    dsimp only <;>
    simp only [List.append_assoc, List.nil_append] <;>
    rw [SgrComposer.parseFrom_boolSeg_bold, SgrComposer.parseFrom_boolSeg_dim,
      SgrComposer.parseFrom_boolSeg_italic, SgrComposer.parseFrom_boolSeg_underline,
      SgrComposer.parseFrom_boolSeg_blink, SgrComposer.parseFrom_boolSeg_inverse,
      SgrComposer.parseFrom_boolSeg_hidden, SgrComposer.parseFrom_boolSeg_strikethrough]
  · rw [SgrComposer.parseFrom_nil]
    apply SgrAttributes.ext <;>
      simp [normBool, apply_ite SgrAttributes.fg, apply_ite SgrAttributes.bg,
        apply_ite SgrAttributes.bold, apply_ite SgrAttributes.dim,
        apply_ite SgrAttributes.italic, apply_ite SgrAttributes.underline,
        apply_ite SgrAttributes.blink, apply_ite SgrAttributes.inverse,
        apply_ite SgrAttributes.hidden, apply_ite SgrAttributes.strikethrough, ite_self]
  · rw [SgrComposer.parseFrom_bgSeg_last cg (hbg cg hAbg)]
    apply SgrAttributes.ext <;>
      simp [normBool, apply_ite SgrAttributes.fg, apply_ite SgrAttributes.bg,
        apply_ite SgrAttributes.bold, apply_ite SgrAttributes.dim,
        apply_ite SgrAttributes.italic, apply_ite SgrAttributes.underline,
        apply_ite SgrAttributes.blink, apply_ite SgrAttributes.inverse,
        apply_ite SgrAttributes.hidden, apply_ite SgrAttributes.strikethrough, ite_self]
  · rw [SgrComposer.parseFrom_fgSeg cf (hfg cf hAfg), SgrComposer.parseFrom_nil]
    apply SgrAttributes.ext <;>
      simp [normBool, apply_ite SgrAttributes.fg, apply_ite SgrAttributes.bg,
        apply_ite SgrAttributes.bold, apply_ite SgrAttributes.dim,
        apply_ite SgrAttributes.italic, apply_ite SgrAttributes.underline,
        apply_ite SgrAttributes.blink, apply_ite SgrAttributes.inverse,
        apply_ite SgrAttributes.hidden, apply_ite SgrAttributes.strikethrough, ite_self]
  · rw [SgrComposer.parseFrom_fgSeg cf (hfg cf hAfg),
      SgrComposer.parseFrom_bgSeg_last cg (hbg cg hAbg)]
    apply SgrAttributes.ext <;>
      simp [normBool, apply_ite SgrAttributes.fg, apply_ite SgrAttributes.bg,
        apply_ite SgrAttributes.bold, apply_ite SgrAttributes.dim,
        apply_ite SgrAttributes.italic, apply_ite SgrAttributes.underline,
        apply_ite SgrAttributes.blink, apply_ite SgrAttributes.inverse,
        apply_ite SgrAttributes.hidden, apply_ite SgrAttributes.strikethrough, ite_self]

/-- A concrete attribute record exercising the round-trip: a packed RGB
foreground, a 256-color background, set, cleared and unset booleans. -/
def C4witnessAttrs : SgrAttributes :=
  { fg := some (SgrComposer.rgbEncode 255 128 64), bg := some 200, bold := some true,
    dim := some false, underline := some true, inverse := some false,
    strikethrough := some true }

/-- C4 witness — the round-trip at `C4witnessAttrs`. -/
theorem C4_sgr_roundtrip_witness :
    ((∀ c, C4witnessAttrs.fg = some c → ValidColor c) ∧
     (∀ c, C4witnessAttrs.bg = some c → ValidColor c)) ∧
    SgrComposer.compose {} (SgrComposer.parse (SgrComposer.toCodes C4witnessAttrs)) =
      normalizeSgr C4witnessAttrs :=
  have h1 : ∀ c, C4witnessAttrs.fg = some c → ValidColor c := fun _ hc =>
    (Option.some.inj hc) ▸
      Or.inr ⟨255, 128, 64, by norm_num, by norm_num, by norm_num, rfl⟩
  have h2 : ∀ c, C4witnessAttrs.bg = some c → ValidColor c := fun _ hc =>
    (Option.some.inj hc) ▸ Or.inl (by norm_num)
  ⟨⟨h1, h2⟩, C4_sgr_roundtrip C4witnessAttrs h1 h2⟩
